import Mathlib

set_option maxHeartbeats 1000000

/-! Shallow embedding of the langgraph_toy core: src/core/graph.py (Node, Edge,
Graph with add_node / add_edge / set_entry_point / get_next_nodes / execute /
validate) and src/core/state.py (StateSchema / AgentState / GraphState with
schema validation, immutable set/update, to_dict and equality).  Python dicts
are modelled as insertion-ordered association lists, Python exceptions as an
Except monad, and the while-loop of Graph.execute as fuel-bounded recursion
whose fuel bound is proved sufficient. -/

/-- Errors raised by the embedded code.  valueError and stateValidationError
mirror ValueError and StateValidationError in the source; typeError models a
Python TypeError from calling a subclass constructor with an unexpected
keyword argument; fuelOut marks exhaustion of the recursion bound of the
embedded while-loop and is proved unreachable. -/
inductive PyErr where
  | valueError (msg : String)
  | stateValidationError (msg : String)
  | typeError (msg : String)
  | fuelOut
deriving DecidableEq

/-- Lookup in an insertion-ordered association list (Python dict access). -/
def lookupKey {α : Type} : List (String × α) → String → Option α
  | [], _ => none
  | (k2, v) :: rest, k => if k2 == k then some v else lookupKey rest k

/-- Node from graph.py: a unique name and a state-transforming function. -/
structure Node (σ : Type) where
  name : String
  func : σ → σ

/-- Node.execute applies the wrapped function (logging dropped; with total
functions the try/re-raise wrapper is the identity). -/
def Node.execute {σ : Type} (n : Node σ) (s : σ) : σ :=
  n.func s

/-- Edge from graph.py: source and target node names and an optional
condition predicate. -/
structure Edge (σ : Type) where
  source : String
  target : String
  condition : Option (σ → Bool)

/-- Edge.should_follow: an edge with no condition always fires, otherwise the
condition is evaluated on the given state. -/
def Edge.should_follow {σ : Type} (e : Edge σ) (s : σ) : Bool :=
  match e.condition with
  | none => true
  | some c => c s

/-- Graph from graph.py: a name, an insertion-ordered node table, an ordered
edge list and a nullable entry point. -/
structure Graph (σ : Type) where
  name : String
  nodes : List (String × Node σ)
  edges : List (Edge σ)
  entry_point : Option String

/-- Graph.__init__: an empty graph with no entry point. -/
def Graph.new (σ : Type) (nm : String) : Graph σ :=
  ⟨nm, [], [], none⟩

/-- Membership test in the node table (Python `name in self.nodes`). -/
def nodeKeysContains {σ : Type} (nodes : List (String × Node σ)) (k : String) : Bool :=
  nodes.any fun p => p.1 == k

/-- Graph.add_node: fails on a duplicate name; otherwise registers the node
and, when no entry point is set yet, makes this node the entry point. -/
def Graph.add_node {σ : Type} (g : Graph σ) (nm : String) (f : σ → σ) :
    Except PyErr (Graph σ) :=
  if nodeKeysContains g.nodes nm then
    .error (.valueError ("Node " ++ nm ++ " already exists"))
  else
    let nodes2 := g.nodes ++ [(nm, ⟨nm, f⟩)]
    let entry2 := match g.entry_point with
      | none => some nm
      | some e => some e
    .ok ⟨g.name, nodes2, g.edges, entry2⟩

/-- Graph.add_edge: fails when source or target is not a registered node,
otherwise appends the edge. -/
def Graph.add_edge {σ : Type} (g : Graph σ) (src tgt : String)
    (cond : Option (σ → Bool)) : Except PyErr (Graph σ) :=
  if !(nodeKeysContains g.nodes src) then
    .error (.valueError ("Source node " ++ src ++ " not found"))
  else if !(nodeKeysContains g.nodes tgt) then
    .error (.valueError ("Target node " ++ tgt ++ " not found"))
  else
    .ok ⟨g.name, g.nodes, g.edges ++ [⟨src, tgt, cond⟩], g.entry_point⟩

/-- Graph.set_entry_point: fails when the name is not a registered node. -/
def Graph.set_entry_point {σ : Type} (g : Graph σ) (nm : String) :
    Except PyErr (Graph σ) :=
  if !(nodeKeysContains g.nodes nm) then
    .error (.valueError ("Node " ++ nm ++ " not found"))
  else
    .ok ⟨g.name, g.nodes, g.edges, some nm⟩

/-- Loop body of Graph.get_next_nodes: walk the edge list in order and keep
the targets of edges leaving `current` whose condition fires on `s`. -/
def getNextFrom {σ : Type} (current : String) (s : σ) : List (Edge σ) → List String
  | [] => []
  | e :: rest =>
    if e.source == current && e.should_follow s then
      e.target :: getNextFrom current s rest
    else
      getNextFrom current s rest

/-- Graph.get_next_nodes: all targets of qualifying outgoing edges, in the
order the edges were added. -/
def Graph.get_next_nodes {σ : Type} (g : Graph σ) (current : String) (s : σ) :
    List String :=
  getNextFrom current s g.edges

/-- While-loop of Graph.execute, as fuel-bounded recursion: raise on a
revisited node, raise on an unregistered node, otherwise run the node, record
the visit, and either stop (no qualifying edge) or continue at the first
qualifying edge's target. -/
def Graph.executeLoop {σ : Type} (g : Graph σ) :
    Nat → String → σ → List String → Except PyErr σ
  | 0, _, _, _ => .error .fuelOut
  | fuel + 1, current, state, visited =>
    if visited.contains current then
      .error (.valueError ("Cycle detected: node " ++ current ++ " already visited"))
    else
      match lookupKey g.nodes current with
      | none => .error (.valueError ("Node " ++ current ++ " not found"))
      | some node =>
        let newState := node.execute state
        match g.get_next_nodes current newState with
        | [] => .ok newState
        | next :: _ => g.executeLoop fuel next newState (current :: visited)

/-- Graph.execute: fail when no entry point is set, otherwise run the loop
from the entry point with an empty visited set.  One fuel unit is consumed per
node execution, and |nodes| + 1 units are proved sufficient. -/
def Graph.execute {σ : Type} (g : Graph σ) (initial : σ) : Except PyErr σ :=
  match g.entry_point with
  | none => .error (.valueError "Graph has no entry point")
  | some entry => g.executeLoop (g.nodes.length + 1) entry initial []

/-- Graph.validate: collect issue strings for an empty node set, a missing or
dangling entry point, orphan nodes, and edges naming unknown nodes. -/
def Graph.validate {σ : Type} (g : Graph σ) : List String :=
  (if g.nodes.isEmpty then ["Graph has no nodes"] else [])
  ++ (match g.entry_point with
      | none => ["Graph has no entry point"]
      | some e =>
        if nodeKeysContains g.nodes e then []
        else ["Entry point " ++ e ++ " not found in nodes"])
  ++ (g.nodes.filterMap fun p =>
        if !((g.entry_point :: g.edges.map fun e => some e.target).contains (some p.1))
            && !(g.entry_point == some p.1) then
          some ("Node " ++ p.1 ++ " has no incoming edges and is not entry point")
        else none)
  ++ (g.edges.map fun e =>
        (if !(nodeKeysContains g.nodes e.source) then
          ["Edge source " ++ e.source ++ " not found"] else [])
        ++ (if !(nodeKeysContains g.nodes e.target) then
          ["Edge target " ++ e.target ++ " not found"] else [])).flatten

/-- Graph-threading variant of the execute loop: every statement of the
source loop is translated with the graph object passed along explicitly, so
that preservation of the graph across the call is a provable statement rather
than an artifact of the translation. -/
def Graph.executeLoopT {σ : Type} (g : Graph σ) :
    Nat → String → σ → List String → Except PyErr σ × Graph σ
  | 0, _, _, _ => (.error .fuelOut, g)
  | fuel + 1, current, state, visited =>
    if visited.contains current then
      (.error (.valueError ("Cycle detected: node " ++ current ++ " already visited")), g)
    else
      match lookupKey g.nodes current with
      | none => (.error (.valueError ("Node " ++ current ++ " not found")), g)
      | some node =>
        let newState := node.execute state
        match g.get_next_nodes current newState with
        | [] => (.ok newState, g)
        | next :: _ => g.executeLoopT fuel next newState (current :: visited)

/-- Graph-threading variant of Graph.execute. -/
def Graph.executeT {σ : Type} (g : Graph σ) (initial : σ) :
    Except PyErr σ × Graph σ :=
  match g.entry_point with
  | none => (.error (.valueError "Graph has no entry point"), g)
  | some entry => g.executeLoopT (g.nodes.length + 1) entry initial []

/-- Graph-threading variant of Graph.validate: validate only builds local
lists and never assigns to a graph field, so the returned graph is the
receiver. -/
def Graph.validateT {σ : Type} (g : Graph σ) : List String × Graph σ :=
  (g.validate, g)

/-- Test for the fuel-exhaustion marker of the embedded while-loop. -/
def isFuelOut {σ : Type} : Except PyErr σ → Bool
  | .error .fuelOut => true
  | _ => false

/-- Test for any error result. -/
def isErr {ε α : Type} : Except ε α → Bool
  | .error _ => true
  | .ok _ => false


/-! Helper lemmas about the list embedding of Python dicts and sets. -/

theorem contains_iff_mem_str (l : List String) (a : String) :
    l.contains a = true ↔ a ∈ l := by
  simp [List.contains]

theorem nodeKeysContains_iff {σ : Type} (ns : List (String × Node σ)) (k : String) :
    nodeKeysContains ns k = true ↔ k ∈ ns.map Prod.fst := by
  simp only [nodeKeysContains, List.any_eq_true, List.mem_map, beq_iff_eq]

theorem lookupKey_mem {α : Type} {xs : List (String × α)} {k : String} {v : α}
    (h : lookupKey xs k = some v) : (k, v) ∈ xs := by
  induction xs with
  | nil => simp [lookupKey] at h
  | cons p rest ih =>
    rw [lookupKey] at h
    by_cases hk : p.1 = k
    · have hbeq : (p.1 == k) = true := by simpa using hk
      rw [hbeq, if_pos rfl] at h
      cases p with
      | mk k2 v2 =>
        simp only at hk
        injection h with h2
        subst hk
        subst h2
        exact List.mem_cons_self _ _
    · have hbeq : (p.1 == k) = false := by simpa using hk
      rw [hbeq] at h
      simp only [Bool.false_eq_true, if_false] at h
      exact List.mem_cons_of_mem _ (ih h)

theorem lookupKey_mem_keys {σ : Type} {ns : List (String × Node σ)} {k : String}
    {v : Node σ} (h : lookupKey ns k = some v) : k ∈ ns.map Prod.fst := by
  have := lookupKey_mem h
  exact List.mem_map.mpr ⟨(k, v), this, rfl⟩

/-! C9 support: the canonical fuel of Graph.execute is never exhausted. -/

theorem executeLoop_not_fuelOut {σ : Type} (g : Graph σ) :
    ∀ (fuel : Nat) (current : String) (s : σ) (visited : List String),
      visited.Nodup → (∀ x ∈ visited, x ∈ g.nodes.map Prod.fst) →
      g.nodes.length + 1 ≤ fuel + visited.length →
      isFuelOut (g.executeLoop fuel current s visited) = false := by
  intro fuel
  induction fuel with
  | zero =>
    intro c s vis hnd hsub hle
    exfalso
    have h1 : vis.length ≤ (g.nodes.map Prod.fst).length :=
      (hnd.subperm hsub).length_le
    simp only [List.length_map] at h1
    omega
  | succ n ih =>
    intro c s vis hnd hsub hle
    rw [Graph.executeLoop]
    by_cases hc : c ∈ vis
    · simp [hc, isFuelOut]
    · rw [if_neg (by simpa using hc)]
      cases hl : lookupKey g.nodes c with
      | none => simp [isFuelOut]
      | some node =>
        simp only
        cases hn : g.get_next_nodes c (node.execute s) with
        | nil => simp [isFuelOut]
        | cons nxt rest =>
          apply ih
          · exact List.nodup_cons.mpr ⟨hc, hnd⟩
          · intro x hx
            rcases List.mem_cons.mp hx with rfl | hx2
            · exact lookupKey_mem_keys hl
            · exact hsub x hx2
          · simp only [List.length_cons]
            omega

/-- C9: for every Graph g and initial state s, g.execute s terminates: each
loop iteration either ends the run (returns or raises) or executes a node not
yet visited and consumes one unit of the fuel bound |g.nodes| + 1, and that
bound is proved never exhausted, so execute performs at most |g.nodes| node
executions before returning or raising. -/
theorem C9_execute_terminates {σ : Type} (g : Graph σ) (s : σ) :
    isFuelOut (g.execute s) = false := by
  unfold Graph.execute
  cases he : g.entry_point with
  | none => simp [isFuelOut]
  | some entry =>
    apply executeLoop_not_fuelOut
    · exact List.nodup_nil
    · intro x hx
      simp at hx
    · simp

/-! C10 support: the threaded translation returns the receiver graph. -/

theorem executeLoopT_eq {σ : Type} (g : Graph σ) :
    ∀ (fuel : Nat) (current : String) (s : σ) (visited : List String),
      g.executeLoopT fuel current s visited
        = (g.executeLoop fuel current s visited, g) := by
  intro fuel
  induction fuel with
  | zero =>
    intro c s vis
    rw [Graph.executeLoopT, Graph.executeLoop]
  | succ n ih =>
    intro c s vis
    rw [Graph.executeLoopT, Graph.executeLoop]
    by_cases hc : c ∈ vis
    · rw [if_pos (by simpa using hc), if_pos (by simpa using hc)]
    · rw [if_neg (by simpa using hc), if_neg (by simpa using hc)]
      cases hl : lookupKey g.nodes c with
      | none => simp
      | some node =>
        simp only
        cases hn : g.get_next_nodes c (node.execute s) with
        | nil => simp
        | cons nxt rest => simp [ih]

/-- C10: Graph.execute and Graph.validate never mutate the graph: in the
statement-by-statement translation that threads the graph object through the
call, the graph returned after execute or validate (whether the result is a
normal return or an error) is exactly the receiver, and the threaded
translations compute the same results as the plain ones. -/
theorem C10_no_graph_mutation {σ : Type} (g : Graph σ) (s : σ) :
    (g.executeT s).2 = g ∧ (g.executeT s).1 = g.execute s
    ∧ (g.validateT).2 = g ∧ (g.validateT).1 = g.validate := by
  refine ⟨?_, ?_, rfl, rfl⟩
  · unfold Graph.executeT
    cases he : g.entry_point <;> simp [executeLoopT_eq]
  · unfold Graph.executeT Graph.execute
    cases he : g.entry_point <;> simp [executeLoopT_eq]

/-! Support for C1 and C4: one step of the execute loop, and the
characterization of get_next_nodes. -/

theorem executeLoop_step {σ : Type} (g : Graph σ) (fuel : Nat) (current : String)
    (state : σ) (visited : List String) (node : Node σ)
    (hv : current ∉ visited) (hn : lookupKey g.nodes current = some node) :
    g.executeLoop (fuel + 1) current state visited
      = (match g.get_next_nodes current (node.func state) with
         | [] => .ok (node.func state)
         | next :: _ => g.executeLoop fuel next (node.func state) (current :: visited)) := by
  rw [Graph.executeLoop, if_neg (by simpa using hv), hn]
  rfl

theorem getNextFrom_head_find {σ : Type} (current : String) (s : σ) :
    ∀ (es : List (Edge σ)) (t : String) (rest : List String),
      getNextFrom current s es = t :: rest →
      (es.find? fun e => e.source == current && e.should_follow s).map Edge.target
        = some t := by
  intro es
  induction es with
  | nil =>
    intro t rest h
    simp [getNextFrom] at h
  | cons e es ih =>
    intro t rest h
    rw [getNextFrom] at h
    by_cases hcond : (e.source == current && e.should_follow s) = true
    · rw [if_pos hcond] at h
      injection h with h1 h2
      rw [List.find?_cons, hcond]
      simp [h1]
    · rw [if_neg hcond] at h
      have hcf : (e.source == current && e.should_follow s) = false := by
        simpa using hcond
      rw [List.find?_cons, hcf]
      exact ih t rest h

theorem getNextFrom_eq_filter {σ : Type} (current : String) (s : σ)
    (es : List (Edge σ)) :
    getNextFrom current s es
      = (es.filter fun e => e.source == current && e.should_follow s).map Edge.target := by
  induction es with
  | nil => rfl
  | cons e es ih =>
    rw [getNextFrom, List.filter_cons]
    by_cases hcond : (e.source == current && e.should_follow s) = true
    · rw [if_pos hcond, if_pos hcond, List.map_cons, ih]
    · rw [if_neg hcond, if_neg hcond, ih]

/-- C1: when the current node has at least one qualifying outgoing edge after
it executes (in particular when it has more than one), execute continues at
the target of the first-added qualifying edge — the head of get_next_nodes,
which is the target of the first edge in add order whose predicate fires on
the post-node state — and the remaining qualifying edges are discarded for
this step. -/
theorem C1_first_qualifying_edge {σ : Type} (g : Graph σ) (fuel : Nat)
    (current t : String) (state : σ) (visited : List String)
    (rest2 : List String) (node : Node σ)
    (hv : current ∉ visited)
    (hn : lookupKey g.nodes current = some node)
    (hnext : g.get_next_nodes current (node.func state) = t :: rest2) :
    g.executeLoop (fuel + 1) current state visited
      = g.executeLoop fuel t (node.func state) (current :: visited)
    ∧ (g.edges.find? fun e => e.source == current
        && e.should_follow (node.func state)).map Edge.target = some t := by
  constructor
  · rw [executeLoop_step g fuel current state visited node hv hn, hnext]
  · exact getNextFrom_head_find current (node.func state) g.edges t rest2 hnext

/-- Three-node graph with two unconditional edges from S, added X first and
then Y, used to witness the tie-break rule. -/
def tieGraph : Graph Nat :=
  ⟨"g", [("S", ⟨"S", fun n => n⟩), ("X", ⟨"X", fun n => n⟩), ("Y", ⟨"Y", fun n => n⟩)],
   [⟨"S", "X", none⟩, ⟨"S", "Y", none⟩], some "S"⟩

theorem C1_first_qualifying_edge_witness :
    tieGraph.executeLoop 4 "S" 0 [] = tieGraph.executeLoop 3 "X" 0 ["S"]
    ∧ (tieGraph.edges.find? fun e => e.source == "S"
        && e.should_follow 0).map Edge.target = some "X" :=
  C1_first_qualifying_edge tieGraph 3 "S" "X" 0 [] ["Y"] ⟨"S", fun n => n⟩
    (by simp) rfl rfl

/-- C4: every edge out of the current node is evaluated in add order against
the post-node state (the state the node just returned), an edge with no
predicate always qualifies, and get_next_nodes is exactly the in-order filter
of the edge list by source and predicate. -/
theorem C4_edges_in_order_on_post_state {σ : Type} (g : Graph σ)
    (fuel : Nat) (current : String) (state : σ) (visited : List String)
    (node : Node σ) (hv : current ∉ visited)
    (hn : lookupKey g.nodes current = some node) :
    (∀ (e : Edge σ) (s2 : σ), e.condition = none → e.should_follow s2 = true)
    ∧ (∀ (c2 : String) (s2 : σ), g.get_next_nodes c2 s2
        = (g.edges.filter fun e => e.source == c2 && e.should_follow s2).map Edge.target)
    ∧ g.executeLoop (fuel + 1) current state visited
        = (match g.get_next_nodes current (node.func state) with
           | [] => .ok (node.func state)
           | next :: _ => g.executeLoop fuel next (node.func state) (current :: visited)) := by
  refine ⟨?_, ?_, ?_⟩
  · intro e s2 hcondn
    rw [Edge.should_follow, hcondn]
  · intro c2 s2
    rw [Graph.get_next_nodes, getNextFrom_eq_filter]
  · exact executeLoop_step g fuel current state visited node hv hn

theorem C4_edges_in_order_on_post_state_witness :
    ((∀ (e : Edge Nat) (s2 : Nat), e.condition = none → e.should_follow s2 = true)
    ∧ (∀ (c2 : String) (s2 : Nat), tieGraph.get_next_nodes c2 s2
        = (tieGraph.edges.filter fun e => e.source == c2 && e.should_follow s2).map Edge.target)
    ∧ tieGraph.executeLoop 4 "S" 0 []
        = (match tieGraph.get_next_nodes "S" 0 with
           | [] => .ok 0
           | next :: _ => tieGraph.executeLoop 3 next 0 ["S"])) :=
  C4_edges_in_order_on_post_state tieGraph 3 "S" 0 [] ⟨"S", fun n => n⟩ (by simp) rfl

/-- Two-node graph A and B where the edge A->B carries an always-false
predicate and B->A is unconditional. -/
def blockedCycleGraph : Graph Nat :=
  ⟨"g", [("A", ⟨"A", fun n => n + 1⟩), ("B", ⟨"B", fun n => n + 10⟩)],
   [⟨"A", "B", some fun _ => false⟩, ⟨"B", "A", none⟩], some "A"⟩

/-- C2 counterexample: a Graph with edges A->B and B->A and entry point A
does NOT raise for every choice of predicates: with an always-false predicate
on A->B, execute returns normally after running only A (the returned state
0 + 1 shows exactly node A executed), so the claim's "regardless of
predicates" fails. -/
theorem C2_counterexample : blockedCycleGraph.execute 0 = .ok 1 := by rfl

/-- Two-node graph A and B with unconditional edges A->B and B->A. -/
def cycleGraphAB (fA fB : Nat → Nat) : Graph Nat :=
  ⟨"g", [("A", ⟨"A", fA⟩), ("B", ⟨"B", fB⟩)],
   [⟨"A", "B", none⟩, ⟨"B", "A", none⟩], some "A"⟩

/-- C2 amended: whenever traversal reaches a node already visited in the same
execute call, the loop raises the cycle ValueError at that moment and returns
no state; and the A<->B graph raises after executing A then B whenever its two
edges actually qualify — in particular always when both are unconditional,
for every pair of node functions — while a blocking predicate can instead end
the run normally. -/
theorem C2_cycle_detection {σ : Type} (g : Graph σ) (fuel : Nat) (current : String)
    (state : σ) (visited : List String) (h : current ∈ visited) :
    g.executeLoop (fuel + 1) current state visited
      = .error (.valueError ("Cycle detected: node " ++ current ++ " already visited"))
    ∧ ∀ (fA fB : Nat → Nat) (s0 : Nat),
        (cycleGraphAB fA fB).execute s0
          = .error (.valueError "Cycle detected: node A already visited") := by
  constructor
  · rw [Graph.executeLoop, if_pos (by simpa using h)]
  · intro fA fB s0
    rfl

theorem C2_cycle_detection_witness :
    (cycleGraphAB Nat.succ Nat.succ).executeLoop 1 "A" 0 ["A"]
      = .error (.valueError "Cycle detected: node A already visited")
    ∧ (cycleGraphAB Nat.succ Nat.succ).execute 0
      = .error (.valueError "Cycle detected: node A already visited") := by
  have h := C2_cycle_detection (cycleGraphAB Nat.succ Nat.succ) 0 "A" 0 ["A"] (by simp)
  exact ⟨h.1, h.2 Nat.succ Nat.succ 0⟩

/-- C5: structural errors are raised synchronously at the call site:
add_node fails exactly when the name is taken (and on a graph with no entry
point yet — in particular a fresh graph receiving its first node — a
successful add makes the new node the entry point); add_edge fails exactly
when source or target is unregistered; set_entry_point fails exactly when the
name is unregistered; execute fails immediately when no entry point is set. -/
theorem C5_structural_errors {σ : Type} (g : Graph σ) (nm src tgt n2 : String)
    (f : σ → σ) (cond : Option (σ → Bool)) (s : σ)
    (hentry : g.entry_point = none) :
    isErr (g.add_node nm f) = nodeKeysContains g.nodes nm
    ∧ (nodeKeysContains g.nodes nm = false →
        (g.add_node nm f).map Graph.entry_point = .ok (some nm))
    ∧ isErr (g.add_edge src tgt cond)
        = (!(nodeKeysContains g.nodes src) || !(nodeKeysContains g.nodes tgt))
    ∧ isErr (g.set_entry_point n2) = !(nodeKeysContains g.nodes n2)
    ∧ g.execute s = .error (.valueError "Graph has no entry point") := by
  refine ⟨?_, ?_, ?_, ?_, ?_⟩
  · by_cases h : nodeKeysContains g.nodes nm <;> simp [Graph.add_node, h, isErr]
  · intro hfalse
    simp [Graph.add_node, hfalse, hentry, Except.map]
  · by_cases h1 : nodeKeysContains g.nodes src <;>
      by_cases h2 : nodeKeysContains g.nodes tgt <;>
        simp [Graph.add_edge, h1, h2, isErr]
  · by_cases h : nodeKeysContains g.nodes n2 <;>
      simp [Graph.set_entry_point, h, isErr]
  · unfold Graph.execute
    rw [hentry]

theorem C5_structural_errors_witness :
    isErr ((Graph.new Nat "g").add_node "A" (fun n => n))
      = nodeKeysContains (Graph.new Nat "g").nodes "A"
    ∧ (nodeKeysContains (Graph.new Nat "g").nodes "A" = false →
        ((Graph.new Nat "g").add_node "A" (fun n => n)).map Graph.entry_point
          = .ok (some "A"))
    ∧ isErr ((Graph.new Nat "g").add_edge "S" "T" none)
        = (!(nodeKeysContains (Graph.new Nat "g").nodes "S")
            || !(nodeKeysContains (Graph.new Nat "g").nodes "T"))
    ∧ isErr ((Graph.new Nat "g").set_entry_point "E")
        = !(nodeKeysContains (Graph.new Nat "g").nodes "E")
    ∧ (Graph.new Nat "g").execute 0 = .error (.valueError "Graph has no entry point") :=
  C5_structural_errors (Graph.new Nat "g") "A" "S" "T" "E" (fun n => n) none 0 rfl

/-! Shallow embedding of src/core/state.py.  Python values are modelled by
PyVal (None, bool, int, str, list, dict with string keys); a Python dict is
an insertion-ordered association list.  deepcopy is the identity on these
immutable values. -/

inductive PyVal where
  | none
  | bool (b : Bool)
  | int (n : Int)
  | str (s : String)
  | list (xs : List PyVal)
  | dict (xs : List (String × PyVal))

/-- Python dict assignment d[k] = v: replace in place on an existing key,
append on a new key. -/
def dictSet : List (String × PyVal) → String → PyVal → List (String × PyVal)
  | [], k, v => [(k, v)]
  | (k2, v2) :: rest, k, v =>
    if k2 == k then (k, v) :: rest else (k2, v2) :: dictSet rest k v

/-- Keys of the second dict that are present in the first (one half of
Python dict equality). -/
def keysSubset (ys xs : List (String × PyVal)) : Bool :=
  ys.all fun p => (lookupKey xs p.1).isSome

mutual
/-- Python == on embedded values: None equals None, bool and int compare
numerically (True == 1), strings compare as strings, lists pointwise, dicts
as unordered key-to-value maps. -/
def pyEq : PyVal → PyVal → Bool
  | .none, .none => true
  | .bool a, .bool b => a == b
  | .bool a, .int n => (if a then (1 : Int) else 0) == n
  | .int n, .bool b => n == (if b then (1 : Int) else 0)
  | .int a, .int b => a == b
  | .str a, .str b => a == b
  | .list xs, .list ys => pyEqList xs ys
  | .dict xs, .dict ys => pyEqEntries xs ys && keysSubset ys xs
  | _, _ => false

/-- Pointwise Python == on lists (false when lengths differ). -/
def pyEqList : List PyVal → List PyVal → Bool
  | [], [] => true
  | x :: xs, y :: ys => pyEq x y && pyEqList xs ys
  | _, _ => false

/-- Every entry of the first dict is matched by an ==-equal value under the
same key in the second. -/
def pyEqEntries : List (String × PyVal) → List (String × PyVal) → Bool
  | [], _ => true
  | (k, v) :: xs, ys =>
    (match lookupKey ys k with
     | Option.none => false
     | Option.some w => pyEq v w) && pyEqEntries xs ys
end

/-- Python truthiness on embedded values: None, False, 0, empty string,
empty list and empty dict are falsy. -/
def pyFalsy : PyVal → Bool
  | .none => true
  | .bool b => !b
  | .int n => n == 0
  | .str s => s == ""
  | .list xs => xs.isEmpty
  | .dict xs => xs.isEmpty

/-- Python `value or default` as used by the subclass constructors. -/
def orDefault (v d : PyVal) : PyVal :=
  if pyFalsy v then d else v

/-! The three state classes of state.py and their declared type hints. -/

/-- Python class tags for the state hierarchy; AgentState and GraphState are
the two StateSchema subclasses declared in state.py. -/
inductive PyClass where
  | stateSchema
  | agentState
  | graphState
deriving DecidableEq

/-- isinstance on the class hierarchy: every class is an instance of
StateSchema, each subclass only of itself and StateSchema. -/
def isSubclass : PyClass → PyClass → Bool
  | _, .stateSchema => true
  | .agentState, .agentState => true
  | .graphState, .graphState => true
  | _, _ => false

/-- Declared field types that occur in state.py: plain str, plain bool,
plain list, and Dict[str, Any]. -/
inductive PyTy where
  | str
  | bool
  | listAny
  | dictStrAny
deriving DecidableEq

/-- get_type_hints for each class: StateSchema declares nothing; AgentState
declares messages/tool_calls/intermediate_steps as list and is_complete as
bool; GraphState declares current_node/next_node as str and context/results
as Dict[str, Any]. -/
def type_hints : PyClass → List (String × PyTy)
  | .stateSchema => []
  | .agentState =>
    [("messages", .listAny), ("tool_calls", .listAny),
     ("intermediate_steps", .listAny), ("is_complete", .bool)]
  | .graphState =>
    [("current_node", .str), ("next_node", .str),
     ("context", .dictStrAny), ("results", .dictStrAny)]

/-- StateSchema._is_valid_type: for generic Dict/List hints only the
container kind is checked (isinstance(value, dict) / isinstance(value,
list)); for plain types an isinstance check against that type. -/
def is_valid_type (v : PyVal) : PyTy → Bool
  | .str => match v with | .str _ => true | _ => false
  | .bool => match v with | .bool _ => true | _ => false
  | .listAny => match v with | .list _ => true | _ => false
  | .dictStrAny => match v with | .dict _ => true | _ => false

/-- StateSchema._validate_types: walk the declared hints in order; a field
present in the data whose value fails its kind check raises
StateValidationError; absent and undeclared fields are never checked. -/
def validate_types (hints : List (String × PyTy)) (data : List (String × PyVal)) :
    Except PyErr Unit :=
  match hints with
  | [] => .ok ()
  | (field, t) :: rest =>
    match lookupKey data field with
    | Option.none => validate_types rest data
    | Option.some v =>
      if is_valid_type v t then validate_types rest data
      else .error (.stateValidationError ("Field " ++ field ++ " has wrong type"))

/-- State instance: its Python class and its _data dict. -/
structure StateSchema where
  cls : PyClass
  data : List (String × PyVal)

/-- Keyword-argument default lookup for the subclass constructors. -/
def getArg (kwargs : List (String × PyVal)) (k : String) (d : PyVal) : PyVal :=
  (lookupKey kwargs k).getD d

/-- Keyword arguments accepted by an __init__ signature. -/
def sigOK (allowed : List String) (kwargs : List (String × PyVal)) : Bool :=
  kwargs.all fun p => allowed.contains p.1

/-- Argument binding of AgentState.__init__: missing arguments default to
None/False, then `messages or []`, `tool_calls or []`,
`intermediate_steps or []` substitute the empty list for falsy values while
is_complete is passed through unmodified. -/
def agentStateData (kwargs : List (String × PyVal)) : List (String × PyVal) :=
  [("messages", orDefault (getArg kwargs "messages" .none) (.list [])),
   ("tool_calls", orDefault (getArg kwargs "tool_calls" .none) (.list [])),
   ("intermediate_steps", orDefault (getArg kwargs "intermediate_steps" .none) (.list [])),
   ("is_complete", getArg kwargs "is_complete" (.bool false))]

/-- Argument binding of GraphState.__init__: current_node and next_node
default to the empty string and pass through unmodified, while
`context or {}` and `results or {}` substitute the empty dict for falsy
values. -/
def graphStateData (kwargs : List (String × PyVal)) : List (String × PyVal) :=
  [("current_node", getArg kwargs "current_node" (.str "")),
   ("next_node", getArg kwargs "next_node" (.str "")),
   ("context", orDefault (getArg kwargs "context" .none) (.dict [])),
   ("results", orDefault (getArg kwargs "results" .none) (.dict []))]

/-- Constructor call cls(**kwargs).  StateSchema.__init__ validates the
kwargs against the (empty) hints and stores a deep copy.  AgentState and
GraphState have fixed signatures (unexpected keywords are a TypeError),
bind their arguments with defaults, then validate against the class hints
and store. -/
def construct (c : PyClass) (kwargs : List (String × PyVal)) :
    Except PyErr StateSchema :=
  match c with
  | .stateSchema =>
    match validate_types (type_hints .stateSchema) kwargs with
    | .error e => .error e
    | .ok _ => .ok ⟨.stateSchema, kwargs⟩
  | .agentState =>
    if !(sigOK ["messages", "tool_calls", "intermediate_steps", "is_complete"] kwargs) then
      .error (.typeError "unexpected keyword argument")
    else
      match validate_types (type_hints .agentState) (agentStateData kwargs) with
      | .error e => .error e
      | .ok _ => .ok ⟨.agentState, agentStateData kwargs⟩
  | .graphState =>
    if !(sigOK ["current_node", "next_node", "context", "results"] kwargs) then
      .error (.typeError "unexpected keyword argument")
    else
      match validate_types (type_hints .graphState) (graphStateData kwargs) with
      | .error e => .error e
      | .ok _ => .ok ⟨.graphState, graphStateData kwargs⟩

/-- StateSchema.get: bound value or the supplied default. -/
def StateSchema.get (s : StateSchema) (key : String) (d : PyVal) : PyVal :=
  (lookupKey s.data key).getD d

/-- StateSchema.set: copy the bindings, write the key, raise
StateValidationError when the key is declared and the value fails its kind
check, otherwise rebuild through the class constructor. -/
def StateSchema.set (s : StateSchema) (key : String) (value : PyVal) :
    Except PyErr StateSchema :=
  let new_data := dictSet s.data key value
  match lookupKey (type_hints s.cls) key with
  | Option.some t =>
    if !(is_valid_type value t) then
      .error (.stateValidationError ("Field " ++ key ++ " has wrong type"))
    else construct s.cls new_data
  | Option.none => construct s.cls new_data

/-- State-threading variant of set: the receiver is returned alongside the
result, making it a statement that neither the validation nor the error path
touches the prior instance's bindings. -/
def StateSchema.setT (s : StateSchema) (key : String) (value : PyVal) :
    Except PyErr StateSchema × StateSchema :=
  (s.set key value, s)

/-- Python dict merge {**a, **b}. -/
def dictMerge (a : List (String × PyVal)) : List (String × PyVal) → List (String × PyVal)
  | [] => a
  | (k, v) :: rest => dictMerge (dictSet a k v) rest

/-- StateSchema.update: merge the new bindings and rebuild through the class
constructor (no per-key pre-check; validation happens in __init__). -/
def StateSchema.update (s : StateSchema) (kwargs : List (String × PyVal)) :
    Except PyErr StateSchema :=
  construct s.cls (dictMerge s.data kwargs)

/-- StateSchema.to_dict: a deep copy of the bindings (the identity on
immutable embedded values). -/
def StateSchema.to_dict (s : StateSchema) : List (String × PyVal) :=
  s.data

/-- Modelled from the spec: `State.from_dict` is named by the spec's
round-trip property but is absent from src/ (state.py defines only to_dict
and to_json); per the spec's words it reconstructs a State of the given
class from a dictionary of bindings, i.e. cls(**d). -/
def StateSchema.from_dict (c : PyClass) (d : List (String × PyVal)) :
    Except PyErr StateSchema :=
  construct c d

/-- StateSchema.__eq__, the method only: other must be an instance of self's
class (true for the same class or, when self's class is StateSchema, any
subclass), and the two _data dicts must compare equal as Python dicts.  The
full == operator, which also honours CPython's reflected-operand priority
for subclass right operands, is pyEqOp below. -/
def stateEq (a b : StateSchema) : Bool :=
  isSubclass b.cls a.cls && pyEq (.dict a.data) (.dict b.data)

/-- State produced by its own constructor: the reconstruction fixed point
that every Python-reachable instance satisfies. -/
def ValidState (s : StateSchema) : Prop :=
  construct s.cls s.data = .ok s

/-! Well-formedness of embedded values: Python dicts cannot hold duplicate
keys, so reflexivity of Python == is proved under this invariant, which every
value reachable from actual Python data satisfies. -/

/-- No duplicate keys at the top level of a dict. -/
def keysNodupB : List (String × PyVal) → Bool
  | [] => true
  | (k, _) :: rest => !(rest.any fun p => p.1 == k) && keysNodupB rest

mutual
/-- Recursively duplicate-free dict keys. -/
def pyWF : PyVal → Bool
  | .dict xs => keysNodupB xs && pyWFEntries xs
  | .list xs => pyWFList xs
  | _ => true

def pyWFList : List PyVal → Bool
  | [] => true
  | x :: xs => pyWF x && pyWFList xs

def pyWFEntries : List (String × PyVal) → Bool
  | [] => true
  | (_, v) :: xs => pyWF v && pyWFEntries xs
end

theorem lookupKey_isSome_of_mem {α : Type} {xs : List (String × α)}
    {p : String × α} (h : p ∈ xs) : (lookupKey xs p.1).isSome = true := by
  induction xs with
  | nil => simp at h
  | cons q rest ih =>
    rw [lookupKey]
    by_cases hq : q.1 == p.1
    · simp [hq]
    · rw [if_neg (by simpa using hq)]
      rcases List.mem_cons.mp h with rfl | h2
      · simp at hq
      · exact ih h2

theorem keysSubset_self (xs : List (String × PyVal)) : keysSubset xs xs = true := by
  rw [keysSubset, List.all_eq_true]
  intro p hp
  simpa using lookupKey_isSome_of_mem hp

theorem lookupKey_of_mem_nodup {xs : List (String × PyVal)} {k : String} {v : PyVal}
    (hnd : keysNodupB xs = true) (h : (k, v) ∈ xs) : lookupKey xs k = some v := by
  induction xs with
  | nil => simp at h
  | cons q rest ih =>
    rw [keysNodupB.eq_def] at hnd
    match q, hnd with
    | (k2, v2), hnd =>
      rw [Bool.and_eq_true] at hnd
      rw [lookupKey]
      rcases List.mem_cons.mp h with heq | h2
      · injection heq with e1 e2
        subst e1
        subst e2
        simp
      · have hk2 : k2 ≠ k := by
          intro hcontra
          subst hcontra
          have : (rest.any fun p => p.1 == k2) = true :=
            List.any_eq_true.mpr ⟨(k2, v), h2, by simp⟩
          simp [this] at hnd
        rw [if_neg (by simpa using hk2)]
        exact ih hnd.2 h2

mutual
theorem pyEq_refl (v : PyVal) (h : pyWF v = true) : pyEq v v = true := by
  match v with
  | .none => rfl
  | .bool b => simp [pyEq]
  | .int n => simp [pyEq]
  | .str s => simp [pyEq]
  | .list xs =>
    rw [pyEq]
    exact pyEqList_refl xs (by simpa [pyWF] using h)
  | .dict xs =>
    rw [pyEq, Bool.and_eq_true]
    rw [pyWF, Bool.and_eq_true] at h
    exact ⟨pyEqEntries_refl xs xs h.2 (fun p hp => lookupKey_of_mem_nodup h.1 hp),
           keysSubset_self xs⟩

theorem pyEqList_refl (xs : List PyVal) (h : pyWFList xs = true) :
    pyEqList xs xs = true := by
  match xs with
  | [] => rfl
  | x :: rest =>
    rw [pyWFList, Bool.and_eq_true] at h
    rw [pyEqList, Bool.and_eq_true]
    exact ⟨pyEq_refl x h.1, pyEqList_refl rest h.2⟩

theorem pyEqEntries_refl (l xs : List (String × PyVal)) (h : pyWFEntries l = true)
    (hlk : ∀ p ∈ l, lookupKey xs p.1 = some p.2) : pyEqEntries l xs = true := by
  match l with
  | [] => rfl
  | (k, v) :: rest =>
    rw [pyWFEntries, Bool.and_eq_true] at h
    rw [pyEqEntries, Bool.and_eq_true]
    constructor
    · rw [hlk (k, v) (List.mem_cons_self _ _)]
      exact pyEq_refl v h.1
    · exact pyEqEntries_refl rest xs h.2 (fun p hp => hlk p (List.mem_cons_of_mem _ hp))
end

/-! Lookup lemmas for dict update and Python dict equality. -/

theorem lookupKey_dictSet_self (xs : List (String × PyVal)) (k : String) (v : PyVal) :
    lookupKey (dictSet xs k v) k = some v := by
  induction xs with
  | nil => simp [dictSet, lookupKey]
  | cons q rest ih =>
    match q with
    | (k2, v2) =>
      rw [dictSet]
      by_cases hk : k2 == k
      · rw [if_pos hk, lookupKey, if_pos (by simp)]
      · rw [if_neg hk, lookupKey, if_neg hk]
        exact ih

theorem pyEqEntries_lookup {xs ys : List (String × PyVal)} {k : String}
    {a b : PyVal} (h : pyEqEntries xs ys = true) (ha : lookupKey xs k = some a)
    (hb : lookupKey ys k = some b) : pyEq a b = true := by
  induction xs with
  | nil => simp [lookupKey] at ha
  | cons q rest ih =>
    match q with
    | (k2, v2) =>
      rw [pyEqEntries, Bool.and_eq_true] at h
      rw [lookupKey] at ha
      by_cases hk : k2 == k
      · rw [if_pos hk] at ha
        injection ha with ha2
        subst ha2
        have hkk : k2 = k := by simpa using hk
        subst hkk
        rw [hb] at h
        exact h.1
      · rw [if_neg hk] at ha
        exact ih h.2 ha

theorem keysSubset_lookup {xs ys : List (String × PyVal)} {k : String} {b : PyVal}
    (h : keysSubset ys xs = true) (hb : lookupKey ys k = some b) :
    (lookupKey xs k).isSome = true := by
  rw [keysSubset, List.all_eq_true] at h
  exact h (k, b) (lookupKey_mem hb)

/-- Python dicts differing at one key (by == on values) are not ==. -/
theorem pyEq_dict_ne_at_key {xs ys : List (String × PyVal)} {k : String}
    {a b : PyVal} (ha : lookupKey xs k = some a) (hb : lookupKey ys k = some b)
    (hne : pyEq a b = false) : pyEq (.dict xs) (.dict ys) = false := by
  cases he : pyEq (.dict xs) (.dict ys) with
  | false => rfl
  | true =>
    rw [pyEq, Bool.and_eq_true] at he
    have := pyEqEntries_lookup he.1 ha hb
    rw [hne] at this
    exact absurd this (by simp)

/-- A dict gaining a key that the other lacks is not ==. -/
theorem pyEq_dict_ne_missing_key {xs ys : List (String × PyVal)} {k : String}
    {b : PyVal} (ha : lookupKey xs k = none) (hb : lookupKey ys k = some b) :
    pyEq (.dict xs) (.dict ys) = false := by
  cases he : pyEq (.dict xs) (.dict ys) with
  | false => rfl
  | true =>
    rw [pyEq, Bool.and_eq_true] at he
    have := keysSubset_lookup he.2 hb
    rw [ha] at this
    exact absurd this (by simp)

/-! Characterization of the constructors and of validation on the two
declared-field classes. -/

theorem orDefault_of_valid_dict {v : PyVal} (h : is_valid_type v .dictStrAny = true) :
    orDefault v (.dict []) = v := by
  cases v with
  | dict xs => cases xs <;> rfl
  | none => simp [is_valid_type] at h
  | bool b => simp [is_valid_type] at h
  | int n => simp [is_valid_type] at h
  | str s2 => simp [is_valid_type] at h
  | list xs => simp [is_valid_type] at h

theorem orDefault_of_valid_list {v : PyVal} (h : is_valid_type v .listAny = true) :
    orDefault v (.list []) = v := by
  cases v with
  | list xs => cases xs <;> rfl
  | none => simp [is_valid_type] at h
  | bool b => simp [is_valid_type] at h
  | int n => simp [is_valid_type] at h
  | str s2 => simp [is_valid_type] at h
  | dict xs => simp [is_valid_type] at h

theorem validate_graphState_iff (cn nn cx rs : PyVal) :
    validate_types (type_hints .graphState)
      [("current_node", cn), ("next_node", nn), ("context", cx), ("results", rs)]
      = .ok ()
    ↔ (is_valid_type cn .str = true ∧ is_valid_type nn .str = true
        ∧ is_valid_type cx .dictStrAny = true ∧ is_valid_type rs .dictStrAny = true) := by
  by_cases h1 : is_valid_type cn .str <;>
    by_cases h2 : is_valid_type nn .str <;>
      by_cases h3 : is_valid_type cx .dictStrAny <;>
        by_cases h4 : is_valid_type rs .dictStrAny <;>
          simp [validate_types, type_hints, lookupKey, h1, h2, h3, h4]

theorem validate_agentState_iff (m tc st ic : PyVal) :
    validate_types (type_hints .agentState)
      [("messages", m), ("tool_calls", tc), ("intermediate_steps", st), ("is_complete", ic)]
      = .ok ()
    ↔ (is_valid_type m .listAny = true ∧ is_valid_type tc .listAny = true
        ∧ is_valid_type st .listAny = true ∧ is_valid_type ic .bool = true) := by
  by_cases h1 : is_valid_type m .listAny <;>
    by_cases h2 : is_valid_type tc .listAny <;>
      by_cases h3 : is_valid_type st .listAny <;>
        by_cases h4 : is_valid_type ic .bool <;>
          simp [validate_types, type_hints, lookupKey, h1, h2, h3, h4]

theorem construct_stateSchema_ok (kwargs : List (String × PyVal)) :
    construct .stateSchema kwargs = .ok ⟨.stateSchema, kwargs⟩ := by
  rw [construct]
  rfl

theorem construct_graphState_ok {kwargs : List (String × PyVal)} {s : StateSchema}
    (h : construct .graphState kwargs = .ok s) :
    s.cls = .graphState
    ∧ s.data = graphStateData kwargs
    ∧ validate_types (type_hints .graphState) (graphStateData kwargs) = .ok () := by
  rw [construct] at h
  by_cases hsig : sigOK ["current_node", "next_node", "context", "results"] kwargs
  · rw [if_neg (by simp [hsig])] at h
    cases hval : validate_types (type_hints .graphState) (graphStateData kwargs) with
    | error e =>
      rw [hval] at h
      exact absurd h (by simp)
    | ok u =>
      cases u
      rw [hval] at h
      injection h with h2
      subst h2
      exact ⟨rfl, rfl, rfl⟩
  · rw [if_pos (by simpa using hsig)] at h
    exact absurd h (by simp)

theorem construct_agentState_ok {kwargs : List (String × PyVal)} {s : StateSchema}
    (h : construct .agentState kwargs = .ok s) :
    s.cls = .agentState
    ∧ s.data = agentStateData kwargs
    ∧ validate_types (type_hints .agentState) (agentStateData kwargs) = .ok () := by
  rw [construct] at h
  by_cases hsig : sigOK ["messages", "tool_calls", "intermediate_steps", "is_complete"] kwargs
  · rw [if_neg (by simp [hsig])] at h
    cases hval : validate_types (type_hints .agentState) (agentStateData kwargs) with
    | error e =>
      rw [hval] at h
      exact absurd h (by simp)
    | ok u =>
      cases u
      rw [hval] at h
      injection h with h2
      subst h2
      exact ⟨rfl, rfl, rfl⟩
  · rw [if_pos (by simpa using hsig)] at h
    exact absurd h (by simp)

/-- Shape of a valid GraphState: four canonical fields in declaration order,
each passing its kind check. -/
theorem valid_graphState_shape {s : StateSchema} (hvalid : ValidState s)
    (hc : s.cls = .graphState) :
    ∃ cn nn cx rs,
      s.data = [("current_node", cn), ("next_node", nn), ("context", cx), ("results", rs)]
      ∧ is_valid_type cn .str = true ∧ is_valid_type nn .str = true
      ∧ is_valid_type cx .dictStrAny = true ∧ is_valid_type rs .dictStrAny = true := by
  rw [ValidState, hc] at hvalid
  obtain ⟨hcls2, hdata, hval⟩ := construct_graphState_ok hvalid
  refine ⟨getArg s.data "current_node" (.str ""), getArg s.data "next_node" (.str ""),
    orDefault (getArg s.data "context" .none) (.dict []),
    orDefault (getArg s.data "results" .none) (.dict []), ?_, ?_⟩
  · exact hdata
  · exact (validate_graphState_iff _ _ _ _).mp hval

/-- Shape of a valid AgentState: four canonical fields in declaration order,
each passing its kind check. -/
theorem valid_agentState_shape {s : StateSchema} (hvalid : ValidState s)
    (hc : s.cls = .agentState) :
    ∃ m tc st ic,
      s.data = [("messages", m), ("tool_calls", tc), ("intermediate_steps", st), ("is_complete", ic)]
      ∧ is_valid_type m .listAny = true ∧ is_valid_type tc .listAny = true
      ∧ is_valid_type st .listAny = true ∧ is_valid_type ic .bool = true := by
  rw [ValidState, hc] at hvalid
  obtain ⟨hcls2, hdata, hval⟩ := construct_agentState_ok hvalid
  refine ⟨orDefault (getArg s.data "messages" .none) (.list []),
    orDefault (getArg s.data "tool_calls" .none) (.list []),
    orDefault (getArg s.data "intermediate_steps" .none) (.list []),
    getArg s.data "is_complete" (.bool false), ?_, ?_⟩
  · exact hdata
  · exact (validate_agentState_iff _ _ _ _).mp hval

/-! Characterization of StateSchema.set on valid states. -/

theorem set_declared_invalid {s : StateSchema} {k : String} {v : PyVal} {t : PyTy}
    (ht : lookupKey (type_hints s.cls) k = some t)
    (hv : is_valid_type v t = false) :
    s.set k v = .error (.stateValidationError ("Field " ++ k ++ " has wrong type")) := by
  simp [StateSchema.set, ht, hv]

theorem set_stateSchema_ok (s : StateSchema) (hc : s.cls = .stateSchema)
    (k : String) (v : PyVal) :
    s.set k v = .ok ⟨.stateSchema, dictSet s.data k v⟩ := by
  obtain ⟨cls, data⟩ := s
  simp only at hc
  subst hc
  simp [StateSchema.set, type_hints, lookupKey, construct, validate_types]

theorem set_declared_valid {s : StateSchema} {k : String} {v : PyVal} {t : PyTy}
    (hvalid : ValidState s) (ht : lookupKey (type_hints s.cls) k = some t)
    (hv : is_valid_type v t = true) :
    s.set k v = .ok ⟨s.cls, dictSet s.data k v⟩ := by
  cases hcls : s.cls with
  | stateSchema =>
    rw [hcls] at ht
    simp [type_hints, lookupKey] at ht
  | graphState =>
    obtain ⟨cn, nn, cx, rs, hdata, v1, v2, v3, v4⟩ := valid_graphState_shape hvalid hcls
    obtain ⟨cls, data⟩ := s
    simp only at hcls hdata ht ⊢
    subst hcls
    subst hdata
    rw [type_hints] at ht
    by_cases h1 : ("current_node" == k) = true
    · have h1e : "current_node" = k := by simpa using h1
      subst h1e
      simp [lookupKey] at ht
      subst ht
      have hvv := (validate_graphState_iff v nn cx rs).mpr ⟨hv, v2, v3, v4⟩
      simp only [type_hints] at hvv
      simp [StateSchema.set, type_hints, lookupKey, hv, dictSet, construct, sigOK,
        graphStateData, getArg, hvv, orDefault_of_valid_dict v3, orDefault_of_valid_dict v4]
    · rw [lookupKey, if_neg (by simpa using h1)] at ht
      by_cases h2 : ("next_node" == k) = true
      · have h2e : "next_node" = k := by simpa using h2
        subst h2e
        simp [lookupKey] at ht
        subst ht
        have hvv := (validate_graphState_iff cn v cx rs).mpr ⟨v1, hv, v3, v4⟩
        simp only [type_hints] at hvv
        simp [StateSchema.set, type_hints, lookupKey, hv, dictSet, construct, sigOK,
          graphStateData, getArg, hvv, orDefault_of_valid_dict v3, orDefault_of_valid_dict v4]
      · rw [lookupKey, if_neg (by simpa using h2)] at ht
        by_cases h3 : ("context" == k) = true
        · have h3e : "context" = k := by simpa using h3
          subst h3e
          simp [lookupKey] at ht
          subst ht
          have hvv := (validate_graphState_iff cn nn v rs).mpr ⟨v1, v2, hv, v4⟩
          simp only [type_hints] at hvv
          simp [StateSchema.set, type_hints, lookupKey, hv, dictSet, construct, sigOK,
            graphStateData, getArg, hvv, orDefault_of_valid_dict hv, orDefault_of_valid_dict v4]
        · rw [lookupKey, if_neg (by simpa using h3)] at ht
          by_cases h4 : ("results" == k) = true
          · have h4e : "results" = k := by simpa using h4
            subst h4e
            simp [lookupKey] at ht
            subst ht
            have hvv := (validate_graphState_iff cn nn cx v).mpr ⟨v1, v2, v3, hv⟩
            simp only [type_hints] at hvv
            simp [StateSchema.set, type_hints, lookupKey, hv, dictSet, construct, sigOK,
              graphStateData, getArg, hvv, orDefault_of_valid_dict v3, orDefault_of_valid_dict hv]
          · rw [lookupKey, if_neg (by simpa using h4), lookupKey] at ht
            exact absurd ht (by simp)
  | agentState =>
    obtain ⟨m, tc, st, ic, hdata, v1, v2, v3, v4⟩ := valid_agentState_shape hvalid hcls
    obtain ⟨cls, data⟩ := s
    simp only at hcls hdata ht ⊢
    subst hcls
    subst hdata
    rw [type_hints] at ht
    by_cases h1 : ("messages" == k) = true
    · have h1e : "messages" = k := by simpa using h1
      subst h1e
      simp [lookupKey] at ht
      subst ht
      have hvv := (validate_agentState_iff v tc st ic).mpr ⟨hv, v2, v3, v4⟩
      simp only [type_hints] at hvv
      simp [StateSchema.set, type_hints, lookupKey, hv, dictSet, construct, sigOK,
        agentStateData, getArg, hvv, orDefault_of_valid_list hv, orDefault_of_valid_list v2,
        orDefault_of_valid_list v3]
    · rw [lookupKey, if_neg (by simpa using h1)] at ht
      by_cases h2 : ("tool_calls" == k) = true
      · have h2e : "tool_calls" = k := by simpa using h2
        subst h2e
        simp [lookupKey] at ht
        subst ht
        have hvv := (validate_agentState_iff m v st ic).mpr ⟨v1, hv, v3, v4⟩
        simp only [type_hints] at hvv
        simp [StateSchema.set, type_hints, lookupKey, hv, dictSet, construct, sigOK,
          agentStateData, getArg, hvv, orDefault_of_valid_list v1, orDefault_of_valid_list hv,
          orDefault_of_valid_list v3]
      · rw [lookupKey, if_neg (by simpa using h2)] at ht
        by_cases h3 : ("intermediate_steps" == k) = true
        · have h3e : "intermediate_steps" = k := by simpa using h3
          subst h3e
          simp [lookupKey] at ht
          subst ht
          have hvv := (validate_agentState_iff m tc v ic).mpr ⟨v1, v2, hv, v4⟩
          simp only [type_hints] at hvv
          simp [StateSchema.set, type_hints, lookupKey, hv, dictSet, construct, sigOK,
            agentStateData, getArg, hvv, orDefault_of_valid_list v1, orDefault_of_valid_list v2,
            orDefault_of_valid_list hv]
        · rw [lookupKey, if_neg (by simpa using h3)] at ht
          by_cases h4 : ("is_complete" == k) = true
          · have h4e : "is_complete" = k := by simpa using h4
            subst h4e
            simp [lookupKey] at ht
            subst ht
            have hvv := (validate_agentState_iff m tc st v).mpr ⟨v1, v2, v3, hv⟩
            simp only [type_hints] at hvv
            simp [StateSchema.set, type_hints, lookupKey, hv, dictSet, construct, sigOK,
              agentStateData, getArg, hvv, orDefault_of_valid_list v1, orDefault_of_valid_list v2,
              orDefault_of_valid_list v3]
          · rw [lookupKey, if_neg (by simpa using h4), lookupKey] at ht
            exact absurd ht (by simp)

theorem sigOK_false_of_mem {sig : List String} {kwargs : List (String × PyVal)}
    {p : String × PyVal} (hp : p ∈ kwargs) (hns : sig.contains p.1 = false) :
    sigOK sig kwargs = false := by
  rw [sigOK, List.all_eq_false]
  refine ⟨p, hp, ?_⟩
  rw [hns]
  simp

/-- Setting a key that is not a declared field of a subclass fails in the
reconstruction: the fixed __init__ signature rejects the unexpected keyword. -/
theorem set_undeclared_subclass_err {s : StateSchema} {k : String} {v : PyVal}
    (hcase : s.cls = .graphState ∨ s.cls = .agentState)
    (htn : lookupKey (type_hints s.cls) k = none) :
    s.set k v = .error (.typeError "unexpected keyword argument") := by
  have hmem : ((k, v) : String × PyVal) ∈ dictSet s.data k v :=
    lookupKey_mem (lookupKey_dictSet_self s.data k v)
  rcases hcase with hc | hc
  · rw [hc] at htn
    simp only [type_hints, lookupKey] at htn
    have hk1 : ¬("current_node" == k) = true := by
      intro hx
      rw [if_pos hx] at htn
      exact absurd htn (by simp)
    rw [if_neg hk1] at htn
    have hk2 : ¬("next_node" == k) = true := by
      intro hx
      rw [if_pos hx] at htn
      exact absurd htn (by simp)
    rw [if_neg hk2] at htn
    have hk3 : ¬("context" == k) = true := by
      intro hx
      rw [if_pos hx] at htn
      exact absurd htn (by simp)
    rw [if_neg hk3] at htn
    have hk4 : ¬("results" == k) = true := by
      intro hx
      rw [if_pos hx] at htn
      exact absurd htn (by simp)
    have hcont : (["current_node", "next_node", "context", "results"] : List String).contains k = false := by
      cases hcc : (["current_node", "next_node", "context", "results"] : List String).contains k with
      | false => rfl
      | true =>
        have hin := (contains_iff_mem_str _ k).mp hcc
        simp only [List.mem_cons, List.not_mem_nil, or_false] at hin
        rcases hin with h | h | h | h <;> simp_all
    have hsig := sigOK_false_of_mem hmem hcont
    rw [StateSchema.set]
    rw [hc]
    simp only [type_hints, lookupKey, if_neg hk1, if_neg hk2, if_neg hk3, if_neg hk4]
    rw [construct]
    rw [if_pos (by simp [hsig])]
  · rw [hc] at htn
    simp only [type_hints, lookupKey] at htn
    have hk1 : ¬("messages" == k) = true := by
      intro hx
      rw [if_pos hx] at htn
      exact absurd htn (by simp)
    rw [if_neg hk1] at htn
    have hk2 : ¬("tool_calls" == k) = true := by
      intro hx
      rw [if_pos hx] at htn
      exact absurd htn (by simp)
    rw [if_neg hk2] at htn
    have hk3 : ¬("intermediate_steps" == k) = true := by
      intro hx
      rw [if_pos hx] at htn
      exact absurd htn (by simp)
    rw [if_neg hk3] at htn
    have hk4 : ¬("is_complete" == k) = true := by
      intro hx
      rw [if_pos hx] at htn
      exact absurd htn (by simp)
    have hcont : (["messages", "tool_calls", "intermediate_steps", "is_complete"] : List String).contains k = false := by
      cases hcc : (["messages", "tool_calls", "intermediate_steps", "is_complete"] : List String).contains k with
      | false => rfl
      | true =>
        have hin := (contains_iff_mem_str _ k).mp hcc
        simp only [List.mem_cons, List.not_mem_nil, or_false] at hin
        rcases hin with h | h | h | h <;> simp_all
    have hsig := sigOK_false_of_mem hmem hcont
    rw [StateSchema.set]
    rw [hc]
    simp only [type_hints, lookupKey, if_neg hk1, if_neg hk2, if_neg hk3, if_neg hk4]
    rw [construct]
    rw [if_pos (by simp [hsig])]

/-- On a valid state a successful set yields the same class with the key
written into the bindings (replace in place or append). -/
theorem set_ok_data {s s2 : StateSchema} {k : String} {v : PyVal}
    (hvalid : ValidState s) (hok : s.set k v = .ok s2) :
    s2.cls = s.cls ∧ s2.data = dictSet s.data k v := by
  cases ht : lookupKey (type_hints s.cls) k with
  | some t =>
    cases hv : is_valid_type v t with
    | false =>
      rw [set_declared_invalid ht hv] at hok
      exact absurd hok (by simp)
    | true =>
      rw [set_declared_valid hvalid ht hv] at hok
      injection hok with h2
      rw [← h2]
      exact ⟨rfl, rfl⟩
  | none =>
    cases hcls : s.cls with
    | stateSchema =>
      rw [set_stateSchema_ok s hcls k v] at hok
      injection hok with h2
      rw [← h2]
      exact ⟨rfl, rfl⟩
    | graphState =>
      rw [set_undeclared_subclass_err (Or.inl hcls) (hcls ▸ ht)] at hok
      exact absurd hok (by simp)
    | agentState =>
      rw [set_undeclared_subclass_err (Or.inr hcls) (hcls ▸ ht)] at hok
      exact absurd hok (by simp)

/-- C3: on any constructor-reachable State s, set never touches the receiver
(the threaded translation returns s unchanged on success and on a
StateValidationError alike); a successful s.set k v yields an instance of the
same class whose bindings are s's with k bound to v; and when k's prior value
in s (None when absent, as get returns) differs from v under Python ==, the
old and new states compare unequal. -/
theorem C3_set_immutability (s s2 : StateSchema) (k : String) (v : PyVal)
    (hvalid : ValidState s) (hok : s.set k v = .ok s2) :
    (s.setT k v).2 = s
    ∧ s2.cls = s.cls
    ∧ lookupKey s2.data k = some v
    ∧ (pyEq (s.get k .none) v = false → stateEq s s2 = false) := by
  obtain ⟨hcls, hdata⟩ := set_ok_data hvalid hok
  refine ⟨rfl, hcls, ?_, ?_⟩
  · rw [hdata]
    exact lookupKey_dictSet_self s.data k v
  · intro hne
    have hlk2 : lookupKey s2.data k = some v := by
      rw [hdata]
      exact lookupKey_dictSet_self s.data k v
    cases hprior : lookupKey s.data k with
    | some p =>
      have hget : s.get k .none = p := by
        rw [StateSchema.get, hprior]
        rfl
      rw [hget] at hne
      have hd := pyEq_dict_ne_at_key hprior hlk2 hne
      simp [stateEq, hd]
    | none =>
      have hd := pyEq_dict_ne_missing_key hprior hlk2
      simp [stateEq, hd]

/-- Default-constructed GraphState. -/
def gsDefault : StateSchema :=
  ⟨.graphState, [("current_node", .str ""), ("next_node", .str ""),
    ("context", .dict []), ("results", .dict [])]⟩

/-- gsDefault after set("context", {"a": 1}). -/
def gsCtx : StateSchema :=
  ⟨.graphState, [("current_node", .str ""), ("next_node", .str ""),
    ("context", .dict [("a", .int 1)]), ("results", .dict [])]⟩

theorem C3_set_immutability_witness :
    (gsDefault.setT "context" (.dict [("a", .int 1)])).2 = gsDefault
    ∧ gsCtx.cls = gsDefault.cls
    ∧ lookupKey gsCtx.data "context" = some (.dict [("a", .int 1)])
    ∧ (pyEq (gsDefault.get "context" .none) (.dict [("a", .int 1)]) = false →
        stateEq gsDefault gsCtx = false) :=
  C3_set_immutability gsDefault gsCtx "context" (.dict [("a", .int 1)]) rfl rfl

/-- Default-constructed AgentState. -/
def asDefault : StateSchema :=
  ⟨.agentState, [("messages", .list []), ("tool_calls", .list []),
    ("intermediate_steps", .list []), ("is_complete", .bool false)]⟩

/-- Base StateSchema carrying exactly the default AgentState bindings. -/
def ssLikeAgent : StateSchema :=
  ⟨.stateSchema, [("messages", .list []), ("tool_calls", .list []),
    ("intermediate_steps", .list []), ("is_complete", .bool false)]⟩

/-- C6 counterexample: constructing GraphState(context="") assigns a string
to a field declared as a mapping yet raises nothing — the constructor's
`context or {}` silently replaces the falsy string by the empty dict — so
"constructing a declared field raises StateValidationError iff the value
fails the shallow kind check" is false for construction. -/
theorem C6_counterexample :
    construct .graphState [("context", .str "")] = .ok gsDefault
    ∧ is_valid_type (.str "") .dictStrAny = false :=
  ⟨rfl, rfl⟩

/-- C6 amended: set on a declared field raises StateValidationError exactly
when the raw value fails the shallow kind check (any dict passes a declared
mapping, any list passes a declared sequence, element types are never
examined), and undeclared fields are never checked (base-class construction
accepts anything); construction of a declared field, however, first applies
the subclass falsy-to-default substitution on the or-defaulted container
fields, so it raises exactly when the value is truthy and fails the check on
those fields, and exactly when the value fails the check on the
passed-through fields. -/
theorem C6_shallow_validation (s : StateSchema) (k : String) (v : PyVal) (t : PyTy)
    (xs : List (String × PyVal)) (ys : List PyVal) (kwargs : List (String × PyVal))
    (hvalid : ValidState s) (ht : lookupKey (type_hints s.cls) k = some t) :
    (is_valid_type v t = false →
      s.set k v = .error (.stateValidationError ("Field " ++ k ++ " has wrong type")))
    ∧ (is_valid_type v t = true → isErr (s.set k v) = false)
    ∧ is_valid_type (.dict xs) .dictStrAny = true
    ∧ is_valid_type (.list ys) .listAny = true
    ∧ construct .stateSchema kwargs = .ok ⟨.stateSchema, kwargs⟩
    ∧ isErr (construct .graphState [("context", v)])
        = (!(pyFalsy v) && !(is_valid_type v .dictStrAny))
    ∧ isErr (construct .graphState [("current_node", v)]) = !(is_valid_type v .str)
    ∧ isErr (construct .agentState [("messages", v)])
        = (!(pyFalsy v) && !(is_valid_type v .listAny))
    ∧ isErr (construct .agentState [("is_complete", v)]) = !(is_valid_type v .bool) := by
  refine ⟨fun hv => set_declared_invalid ht hv,
    fun hv => by rw [set_declared_valid hvalid ht hv]; rfl,
    rfl, rfl, construct_stateSchema_ok kwargs, ?_, ?_, ?_, ?_⟩
  · cases v with
    | none =>
      simp [construct, sigOK, getArg, lookupKey, orDefault, pyFalsy, is_valid_type,
        validate_types, type_hints, graphStateData, isErr]
    | bool b =>
      cases b <;>
        simp [construct, sigOK, getArg, lookupKey, orDefault, pyFalsy, is_valid_type,
          validate_types, type_hints, graphStateData, isErr]
    | int n =>
      by_cases hn : n = 0 <;>
        simp [construct, sigOK, getArg, lookupKey, orDefault, pyFalsy, is_valid_type,
          validate_types, type_hints, graphStateData, isErr, hn]
    | str st =>
      by_cases hs : st = "" <;>
        simp [construct, sigOK, getArg, lookupKey, orDefault, pyFalsy, is_valid_type,
          validate_types, type_hints, graphStateData, isErr, hs]
    | list xs0 =>
      cases xs0 <;>
        simp [construct, sigOK, getArg, lookupKey, orDefault, pyFalsy, is_valid_type,
          validate_types, type_hints, graphStateData, isErr]
    | dict xs0 =>
      cases xs0 <;>
        simp [construct, sigOK, getArg, lookupKey, orDefault, pyFalsy, is_valid_type,
          validate_types, type_hints, graphStateData, isErr]
  · cases v <;>
      simp [construct, sigOK, getArg, lookupKey, orDefault, pyFalsy, is_valid_type,
        validate_types, type_hints, graphStateData, isErr]
  · cases v with
    | none =>
      simp [construct, sigOK, getArg, lookupKey, orDefault, pyFalsy, is_valid_type,
        validate_types, type_hints, agentStateData, isErr]
    | bool b =>
      cases b <;>
        simp [construct, sigOK, getArg, lookupKey, orDefault, pyFalsy, is_valid_type,
          validate_types, type_hints, agentStateData, isErr]
    | int n =>
      by_cases hn : n = 0 <;>
        simp [construct, sigOK, getArg, lookupKey, orDefault, pyFalsy, is_valid_type,
          validate_types, type_hints, agentStateData, isErr, hn]
    | str st =>
      by_cases hs : st = "" <;>
        simp [construct, sigOK, getArg, lookupKey, orDefault, pyFalsy, is_valid_type,
          validate_types, type_hints, agentStateData, isErr, hs]
    | list xs0 =>
      cases xs0 <;>
        simp [construct, sigOK, getArg, lookupKey, orDefault, pyFalsy, is_valid_type,
          validate_types, type_hints, agentStateData, isErr]
    | dict xs0 =>
      cases xs0 <;>
        simp [construct, sigOK, getArg, lookupKey, orDefault, pyFalsy, is_valid_type,
          validate_types, type_hints, agentStateData, isErr]
  · cases v <;>
      simp [construct, sigOK, getArg, lookupKey, orDefault, pyFalsy, is_valid_type,
        validate_types, type_hints, agentStateData, isErr]

theorem C6_shallow_validation_witness :
    (is_valid_type (.str "x") .dictStrAny = false →
      gsDefault.set "context" (.str "x")
        = .error (.stateValidationError ("Field " ++ "context" ++ " has wrong type")))
    ∧ (is_valid_type (.str "x") .dictStrAny = true →
        isErr (gsDefault.set "context" (.str "x")) = false)
    ∧ is_valid_type (.dict [("z", .str "q")]) .dictStrAny = true
    ∧ is_valid_type (.list [.int 3]) .listAny = true
    ∧ construct .stateSchema [("w", .int 7)] = .ok ⟨.stateSchema, [("w", .int 7)]⟩
    ∧ isErr (construct .graphState [("context", .str "x")])
        = (!(pyFalsy (.str "x")) && !(is_valid_type (.str "x") .dictStrAny))
    ∧ isErr (construct .graphState [("current_node", .str "x")])
        = !(is_valid_type (.str "x") .str)
    ∧ isErr (construct .agentState [("messages", .str "x")])
        = (!(pyFalsy (.str "x")) && !(is_valid_type (.str "x") .listAny))
    ∧ isErr (construct .agentState [("is_complete", .str "x")])
        = !(is_valid_type (.str "x") .bool) :=
  C6_shallow_validation gsDefault "context" (.str "x") .dictStrAny
    [("z", .str "q")] [.int 3] [("w", .int 7)] rfl rfl

/-- C7: for every constructor-reachable State with well-formed (Python
representable, duplicate-free) bindings, from_dict applied to to_dict
reconstructs the very same State, and the Python == between the two then
evaluates to true. -/
theorem C7_round_trip (s : StateSchema) (hvalid : ValidState s)
    (hwf : pyWF (.dict s.data) = true) :
    StateSchema.from_dict s.cls s.to_dict = .ok s ∧ stateEq s s = true := by
  constructor
  · rw [StateSchema.from_dict, StateSchema.to_dict]
    exact hvalid
  · rw [stateEq]
    have h1 : isSubclass s.cls s.cls = true := by cases s.cls <;> rfl
    rw [h1, pyEq_refl _ hwf]
    rfl

theorem C7_round_trip_witness :
    StateSchema.from_dict asDefault.cls asDefault.to_dict = .ok asDefault
    ∧ stateEq asDefault asDefault = true :=
  C7_round_trip asDefault rfl rfl

/-- Python == dispatch on states: when the right operand's class is a proper
subclass of the left's, CPython consults the right operand's __eq__ first;
StateSchema.__eq__ always returns a bool (never NotImplemented), so the
first consulted method decides.  In every other arrangement the left
operand's __eq__ decides. -/
def pyEqOp (a b : StateSchema) : Bool :=
  if isSubclass b.cls a.cls = true ∧ b.cls ≠ a.cls then stateEq b a
  else stateEq a b

/-! Symmetry of Python == on well-formed values, used for C8. -/

theorem pyVal_sizeOf_pos (v : PyVal) : 0 < sizeOf v := by
  cases v <;> simp_arith

theorem pyWFList_mem {xs : List PyVal} (h : pyWFList xs = true) {a : PyVal}
    (ha : a ∈ xs) : pyWF a = true := by
  induction xs with
  | nil => simp at ha
  | cons x rest ih =>
    rw [pyWFList, Bool.and_eq_true] at h
    rcases List.mem_cons.mp ha with rfl | h2
    · exact h.1
    · exact ih h.2 h2

theorem pyWFEntries_mem {xs : List (String × PyVal)} (h : pyWFEntries xs = true)
    {p : String × PyVal} (hp : p ∈ xs) : pyWF p.2 = true := by
  induction xs with
  | nil => simp at hp
  | cons q rest ih =>
    match q with
    | (k2, v2) =>
      rw [pyWFEntries, Bool.and_eq_true] at h
      rcases List.mem_cons.mp hp with rfl | h2
      · exact h.1
      · exact ih h.2 h2

theorem pyEqEntries_mem_lookup {xs ys : List (String × PyVal)}
    (h : pyEqEntries xs ys = true) {k : String} {v : PyVal}
    (hm : (k, v) ∈ xs) : ∃ w, lookupKey ys k = some w ∧ pyEq v w = true := by
  induction xs with
  | nil => simp at hm
  | cons q rest ih =>
    match q with
    | (k2, v2) =>
      rw [pyEqEntries, Bool.and_eq_true] at h
      rcases List.mem_cons.mp hm with heq | h2
      · injection heq with e1 e2
        subst e1
        subst e2
        cases hly : lookupKey ys k with
        | none =>
          rw [hly] at h
          exact absurd h.1 (by simp)
        | some w =>
          rw [hly] at h
          exact ⟨w, rfl, h.1⟩
      · exact ih h.2 h2

theorem pyEqEntries_of_forall {l ys : List (String × PyVal)}
    (h : ∀ p ∈ l, ∃ w, lookupKey ys p.1 = some w ∧ pyEq p.2 w = true) :
    pyEqEntries l ys = true := by
  induction l with
  | nil => rfl
  | cons q rest ih =>
    match q with
    | (k2, v2) =>
      obtain ⟨w, hw, hpe⟩ := h (k2, v2) (List.mem_cons_self _ _)
      rw [pyEqEntries, Bool.and_eq_true, hw]
      exact ⟨hpe, ih fun p hp => h p (List.mem_cons_of_mem _ hp)⟩

theorem pyEqEntries_iff_nodup {xs ys : List (String × PyVal)}
    (hnd : keysNodupB xs = true) :
    pyEqEntries xs ys = true
      ↔ ∀ k v, lookupKey xs k = some v →
          ∃ w, lookupKey ys k = some w ∧ pyEq v w = true := by
  constructor
  · intro h k v hl
    exact pyEqEntries_mem_lookup h (lookupKey_mem hl)
  · intro h
    exact pyEqEntries_of_forall fun p hp =>
      h p.1 p.2 (lookupKey_of_mem_nodup hnd (by cases p; exact hp))

theorem keysSubset_iff {ys xs : List (String × PyVal)}
    (hnd : keysNodupB ys = true) :
    keysSubset ys xs = true
      ↔ ∀ k w, lookupKey ys k = some w → (lookupKey xs k).isSome = true := by
  constructor
  · intro h k w hw
    exact keysSubset_lookup h hw
  · intro h
    rw [keysSubset, List.all_eq_true]
    intro p hp
    have := h p.1 p.2 (lookupKey_of_mem_nodup hnd (by cases p; exact hp))
    simpa using this

theorem pyDict_symm_of {xs ys : List (String × PyVal)}
    (hxnd : keysNodupB xs = true) (hynd : keysNodupB ys = true)
    (ihsym : ∀ k v w, lookupKey xs k = some v → lookupKey ys k = some w →
      pyEq v w = pyEq w v) :
    (pyEqEntries xs ys && keysSubset ys xs)
      = (pyEqEntries ys xs && keysSubset xs ys) := by
  rw [Bool.eq_iff_iff, Bool.and_eq_true, Bool.and_eq_true,
    pyEqEntries_iff_nodup hxnd, pyEqEntries_iff_nodup hynd,
    keysSubset_iff hynd, keysSubset_iff hxnd]
  constructor
  · rintro ⟨hP, hQ⟩
    constructor
    · intro k w hlw
      cases hlv : lookupKey xs k with
      | none =>
        have := hQ k w hlw
        rw [hlv] at this
        simp at this
      | some v =>
        obtain ⟨w2, hw2, hpe⟩ := hP k v hlv
        rw [hlw] at hw2
        injection hw2 with hww
        subst hww
        refine ⟨v, rfl, ?_⟩
        rw [← ihsym k v w hlv hlw]
        exact hpe
    · intro k v hlv
      obtain ⟨w, hw, _⟩ := hP k v hlv
      rw [hw]
      rfl
  · rintro ⟨hP, hQ⟩
    constructor
    · intro k v hlv
      cases hlw : lookupKey ys k with
      | none =>
        have := hQ k v hlv
        rw [hlw] at this
        simp at this
      | some w =>
        obtain ⟨v2, hv2, hpe⟩ := hP k w hlw
        rw [hlv] at hv2
        injection hv2 with hvv
        subst hvv
        refine ⟨w, rfl, ?_⟩
        rw [ihsym k v w hlv hlw]
        exact hpe
    · intro k w hlw
      obtain ⟨v, hv, _⟩ := hP k w hlw
      rw [hv]
      rfl

theorem pyEqList_symm_of {xs ys : List PyVal}
    (ihsym : ∀ a b, a ∈ xs → b ∈ ys → pyEq a b = pyEq b a) :
    pyEqList xs ys = pyEqList ys xs := by
  induction xs generalizing ys with
  | nil => cases ys <;> rfl
  | cons x rest ih =>
    cases ys with
    | nil => rfl
    | cons y rest2 =>
      rw [pyEqList, pyEqList,
        ihsym x y (List.mem_cons_self _ _) (List.mem_cons_self _ _),
        ih fun a b ha hb =>
          ihsym a b (List.mem_cons_of_mem _ ha) (List.mem_cons_of_mem _ hb)]

theorem pyEq_symm_aux :
    ∀ (n : Nat) (a b : PyVal), sizeOf a + sizeOf b ≤ n →
      pyWF a = true → pyWF b = true → pyEq a b = pyEq b a := by
  intro n
  induction n with
  | zero =>
    intro a b hsz _ _
    have ha := pyVal_sizeOf_pos a
    have hb := pyVal_sizeOf_pos b
    omega
  | succ n ih =>
    intro a b hsz hwa hwb
    cases a with
    | none => cases b <;> simp [pyEq]
    | bool x =>
      cases b with
      | bool y => rw [pyEq, pyEq, Bool.beq_comm]
      | int m => rw [pyEq, pyEq, Bool.beq_comm]
      | _ => simp [pyEq]
    | int m =>
      cases b with
      | bool y => rw [pyEq, pyEq, Bool.beq_comm]
      | int m2 => rw [pyEq, pyEq, Bool.beq_comm]
      | _ => simp [pyEq]
    | str st =>
      cases b with
      | str st2 => rw [pyEq, pyEq, Bool.beq_comm]
      | _ => simp [pyEq]
    | list xs =>
      cases b with
      | list ys =>
        rw [pyEq, pyEq]
        refine pyEqList_symm_of fun a2 b2 ha2 hb2 => ?_
        have hsa := List.sizeOf_lt_of_mem ha2
        have hsb := List.sizeOf_lt_of_mem hb2
        refine ih a2 b2 ?_ (pyWFList_mem (by simpa [pyWF] using hwa) ha2)
          (pyWFList_mem (by simpa [pyWF] using hwb) hb2)
        have e1 : sizeOf (PyVal.list xs) = 1 + sizeOf xs := by simp
        have e2 : sizeOf (PyVal.list ys) = 1 + sizeOf ys := by simp
        omega
      | _ => simp [pyEq]
    | dict xs =>
      cases b with
      | dict ys =>
        rw [pyWF, Bool.and_eq_true] at hwa hwb
        rw [pyEq, pyEq]
        refine pyDict_symm_of hwa.1 hwb.1 fun k v w hlv hlw => ?_
        have hma := lookupKey_mem hlv
        have hmb := lookupKey_mem hlw
        have hsa := List.sizeOf_lt_of_mem hma
        have hsb := List.sizeOf_lt_of_mem hmb
        have hsa2 : sizeOf v < sizeOf ((k, v) : String × PyVal) := by simp_arith
        have hsb2 : sizeOf w < sizeOf ((k, w) : String × PyVal) := by simp_arith
        refine ih v w ?_ (pyWFEntries_mem hwa.2 hma) (pyWFEntries_mem hwb.2 hmb)
        have e1 : sizeOf (PyVal.dict xs) = 1 + sizeOf xs := by simp
        have e2 : sizeOf (PyVal.dict ys) = 1 + sizeOf ys := by simp
        omega
      | _ => simp [pyEq]

theorem pyEq_symm (a b : PyVal) (hwa : pyWF a = true) (hwb : pyWF b = true) :
    pyEq a b = pyEq b a :=
  pyEq_symm_aux (sizeOf a + sizeOf b) a b le_rfl hwa hwb

/-- C8: Python == between two States holds iff they are of the same subtype
and their full binding mappings compare equal as Python dicts; consequently
(for well-formed bindings) equality is symmetric, and two States of
different subtypes are never equal even with identical bindings — when the
right operand's class is a proper subclass, CPython consults its __eq__
first, whose isinstance check fails, and in the mirrored comparison the
left operand's isinstance check fails. -/
theorem C8_equality_same_subtype (a b : StateSchema)
    (hwa : pyWF (.dict a.data) = true) (hwb : pyWF (.dict b.data) = true) :
    (pyEqOp a b = true
      ↔ (a.cls = b.cls ∧ pyEq (.dict a.data) (.dict b.data) = true))
    ∧ pyEqOp a b = pyEqOp b a
    ∧ (a.cls ≠ b.cls → pyEqOp a b = false) := by
  obtain ⟨ca, da⟩ := a
  obtain ⟨cb, db⟩ := b
  simp only at hwa hwb
  refine ⟨?_, ?_, ?_⟩ <;>
    cases ca <;> cases cb <;>
      simp [pyEqOp, stateEq, isSubclass]
  all_goals exact pyEq_symm _ _ hwa hwb

theorem C8_equality_same_subtype_witness :
    (pyEqOp ssLikeAgent asDefault = true
      ↔ (ssLikeAgent.cls = asDefault.cls
          ∧ pyEq (.dict ssLikeAgent.data) (.dict asDefault.data) = true))
    ∧ pyEqOp ssLikeAgent asDefault = pyEqOp asDefault ssLikeAgent
    ∧ (ssLikeAgent.cls ≠ asDefault.cls → pyEqOp ssLikeAgent asDefault = false) :=
  C8_equality_same_subtype ssLikeAgent asDefault rfl rfl
